/-
Verification of the multi-agent-design-patterns repository.

This file gives a shallow embedding, in Lean 4, of the pure computational
core of the repository:

* `src/agentic_patterns/orchestrator.py` — task decomposition
  (`Orchestrator.analyse_project`), worker dispatch and guarded execution
  (`Orchestrator.execute_tasks`), aggregation (`all(res.success ...)` in
  `Orchestrator.run`);
* `src/agentic_patterns/judge_loop.py` — the evaluation heuristic
  (`JudgeLoop.evaluate`) and the bounded generate/evaluate refinement loop
  (`JudgeLoop.run`);
* `src/agentic_patterns/parallel.py` — the voting step of
  `ParallelTranslation.run` (`Counter(...).most_common(1)[0][0]`);
* `src/utils/model_provider.py` — the rule-based stub `_stub_response` and
  the usage accounting of `call_model`.

Python strings are modelled as Lean `String` (a structure over `List Char`
in this Lean version), and the Python string primitives used by the code
(`str.lower`, `in` substring test, `str.strip`, `str.split`,
`str.split(sep)`) are re-implemented structurally below so that all
definitions reduce in the kernel.

Effectful ingredients are made explicit parameters:
* the generation call of the judge loop becomes a function
  `gen : Nat → String → String` from (iteration, feedback) to the produced
  outline, since the Python generator is an opaque model call;
* the three concurrently gathered replies of `ParallelTranslation.run`
  become a function `Fin 3 → String`;
* the `random.choice` in `_stub_response`'s story-outline branch becomes an
  explicit index `pick : Fin 3` selecting from the hard-coded topic list;
* a worker function may raise, which is modelled by returning
  `Except String TaskResult` (the `String` is the exception message
  `str(e)`).
-/

import Mathlib

namespace AgenticPatterns

/-! ## Python string primitives, re-implemented structurally -/

/-- `listStartsWith pat s` is true when `pat` is an initial segment of `s`. -/
def listStartsWith : List Char → List Char → Bool
  | [], _ => true
  | _ :: _, [] => false
  | p :: ps, c :: cs => p == c && listStartsWith ps cs

/-- `listContains s pat` is the Python substring test `pat in s`. -/
def listContains : List Char → List Char → Bool
  | [], pat => listStartsWith pat []
  | s@(_ :: cs), pat => listStartsWith pat s || listContains cs pat

/-- Python `s.lower()` (ASCII case folding, as `str.lower` on these inputs). -/
def lower (s : String) : String := ⟨s.data.map Char.toLower⟩

/-- Python `pat in s` on strings. -/
def containsSub (s pat : String) : Bool := listContains s.data pat.data

/-- Python `s.strip()`: drop leading and trailing whitespace. -/
def pyStrip (s : String) : String :=
  ⟨((s.data.dropWhile Char.isWhitespace).reverse.dropWhile Char.isWhitespace).reverse⟩

/-- Helper for Python `s.split("\n")`: split at newline characters, keeping
empty parts, accumulating the current segment in reverse. -/
def splitNlAux : List Char → List Char → List (List Char)
  | [], acc => [acc.reverse]
  | c :: cs, acc => if c == '\n' then acc.reverse :: splitNlAux cs [] else splitNlAux cs (c :: acc)

/-- Python `s.split("\n")`. -/
def pyLines (s : String) : List String := (splitNlAux s.data []).map String.mk

/-- Helper for Python `s.split()` (no separator): whitespace-delimited
words, empty words dropped. -/
def pyWordsAux : List Char → List Char → List (List Char)
  | [], acc => if acc.isEmpty then [] else [acc.reverse]
  | c :: cs, acc =>
    if c.isWhitespace then
      if acc.isEmpty then pyWordsAux cs [] else acc.reverse :: pyWordsAux cs []
    else pyWordsAux cs (c :: acc)

/-- Python `s.split()`. -/
def pyWords (s : String) : List String := (pyWordsAux s.data []).map String.mk

/-- Helper for Python `s.split(sep)` with a non-empty separator; the fuel is
the length of the remaining input, which bounds the recursion. -/
def splitOnSubFuel (pat : List Char) : Nat → List Char → List Char → List (List Char)
  | 0, s, acc => [acc.reverse ++ s]
  | _ + 1, [], acc => [acc.reverse]
  | fuel + 1, c :: cs, acc =>
    if listStartsWith pat (c :: cs) then
      acc.reverse :: splitOnSubFuel pat fuel ((c :: cs).drop pat.length) []
    else
      splitOnSubFuel pat fuel cs (c :: acc)

/-- Python `s.split(sep)` for non-empty `sep`. -/
def pySplitOn (s pat : String) : List String :=
  (splitOnSubFuel pat.data (s.data.length + 1) s.data []).map String.mk

/-- The part of `s` after its first colon, or all of `s` when there is no
colon: Python `s.split(":", 1)[-1]`. -/
def afterFirstColonAux : List Char → Option (List Char)
  | [] => none
  | c :: cs => if c == ':' then some cs else afterFirstColonAux cs

/-- Python `s.split(":", 1)[-1]`. -/
def afterFirstColon (s : String) : String := ⟨(afterFirstColonAux s.data).getD s.data⟩

/-! ## Orchestrator (`src/agentic_patterns/orchestrator.py`) -/

/-- `Task` dataclass (orchestrator.py lines 24-29). -/
structure Task where
  task_id : String
  description : String
  type : String
  dependencies : List String := []
deriving DecidableEq, Repr

/-- `TaskResult` dataclass (orchestrator.py lines 32-37). -/
structure TaskResult where
  task_id : String
  success : Bool
  output : String
  error : Option String := none
deriving DecidableEq, Repr

/-- Keyword classification of one stripped line of the project description
(orchestrator.py lines 63-69): frontend keywords are checked first, then
backend keywords, with `analysis` as the fall-through. -/
def classifyLine (line : String) : String :=
  if (["ui", "frontend"].any fun keyword => containsSub (lower line) keyword) then "frontend"
  else if (["api", "backend"].any fun keyword => containsSub (lower line) keyword) then "backend"
  else "analysis"

/-- `Orchestrator.analyse_project` (orchestrator.py lines 58-77): split the
description into stripped non-empty lines and build one `Task` per line,
with a 1-based sequential id. -/
def analyse_project (description : String) : List Task :=
  let lines := ((pyLines description).map pyStrip).filter (fun l => l ≠ "")
  (List.enumFrom 1 lines).map fun p =>
    { task_id := "task_" ++ toString p.1
      description := p.2
      type := classifyLine p.2
      dependencies := [] }

/-- A worker function; `Except` models the possibility of the Python
callable raising, carrying the exception message `str(e)`. -/
def Worker : Type := Task → Except String TaskResult

/-- `Orchestrator.backend_worker` (orchestrator.py lines 79-82). -/
def backend_worker : Worker := fun task =>
  .ok ⟨task.task_id, true, "Implemented API changes for: " ++ task.description, none⟩

/-- `Orchestrator.frontend_worker` (orchestrator.py lines 84-87). -/
def frontend_worker : Worker := fun task =>
  .ok ⟨task.task_id, true, "Updated UI components for: " ++ task.description, none⟩

/-- `Orchestrator.analysis_worker` (orchestrator.py lines 89-92). -/
def analysis_worker : Worker := fun task =>
  .ok ⟨task.task_id, true, "Analysed requirement: " ++ task.description, none⟩

/-- The `self.workers` dispatch dictionary built in `Orchestrator.__init__`
(orchestrator.py lines 50-56), as the partial lookup `dict.get`. -/
def workers : String → Option Worker := fun t =>
  if t = "backend" then some backend_worker
  else if t = "frontend" then some frontend_worker
  else if t = "analysis" then some analysis_worker
  else none

/-- The guarded call of one worker (orchestrator.py lines 99-107): a normal
return is passed through, a raised exception `e` becomes a failed
`TaskResult` with empty output and `error = str(e)`. -/
def runWorker (w : Worker) (task : Task) : TaskResult :=
  match w task with
  | .ok r => r
  | .error e => ⟨task.task_id, false, "", some e⟩

/-- `Orchestrator.execute_tasks` (orchestrator.py lines 94-109),
parametrised by the dispatch table: for each task in order, look up a
worker by `task.type` with `analysis_worker` as the default, run it
guarded, and collect the results in order. -/
def execute_tasks (table : String → Option Worker) (tasks : List Task) : List TaskResult :=
  tasks.map fun task => runWorker ((table task.type).getD analysis_worker) task

/-- The aggregation `all(res.success for res in results)` computed in
`Orchestrator.run` (orchestrator.py line 136). -/
def all_tasks_completed (results : List TaskResult) : Bool :=
  results.all fun res => res.success

/-! ## Judge loop (`src/agentic_patterns/judge_loop.py`) -/

/-- `EvaluationFeedback` dataclass (judge_loop.py lines 21-24). -/
structure EvaluationFeedback where
  feedback : String
  score : String
deriving DecidableEq, Repr

/-- `JudgeLoop.evaluate` (judge_loop.py lines 44-56): pass when the outline
has more than 8 whitespace-separated words and its lowercasing contains one
of the keywords, otherwise return the first canned suggestion with score
`needs_improvement`. -/
def evaluate (outline : String) : EvaluationFeedback :=
  if 8 < (pyWords outline).length ∧
      (["unexpected", "mysterious", "detective"].any fun word =>
        containsSub (lower outline) word) = true then
    ⟨"", "pass"⟩
  else
    ⟨"Add an element of mystery", "needs_improvement"⟩

/-- The result dictionary returned by `JudgeLoop.run` (judge_loop.py lines
74-80), without the trace-file path. -/
structure JudgeResult where
  outline : String
  passed : Bool
  iterations : Nat
  feedback : String
deriving DecidableEq, Repr

/-- The body of the `for iteration in range(1, max_iterations + 1)` loop of
`JudgeLoop.run` (judge_loop.py lines 64-72), with the generation call made
an explicit function `gen` of the iteration number and the current
feedback. `fuel` counts the iterations still allowed after the current one,
so the initial call uses `fuel = max_iterations - 1`. On a pass the loop
breaks, returning the feedback variable as it was entering the iteration;
when the fuel runs out the last evaluation's feedback is returned. -/
def runAux (gen : Nat → String → String) : Nat → Nat → String → JudgeResult
  | iter, 0, feedback =>
    let outline := gen iter feedback
    let ev := evaluate outline
    if ev.score = "pass" then ⟨outline, true, iter, feedback⟩
    else ⟨outline, false, iter, ev.feedback⟩
  | iter, fuel + 1, feedback =>
    let outline := gen iter feedback
    let ev := evaluate outline
    if ev.score = "pass" then ⟨outline, true, iter, feedback⟩
    else runAux gen (iter + 1) fuel ev.feedback

/-- `JudgeLoop.run` (judge_loop.py lines 58-80) for `max_iterations ≥ 1`:
start at iteration 1 with empty feedback. -/
def JudgeLoop.run (gen : Nat → String → String) (maxIterations : Nat) : JudgeResult :=
  runAux gen 1 (maxIterations - 1) ""

/-- The feedback variable as it enters iteration `i` of `JudgeLoop.run`,
assuming all iterations before `i` failed: empty at iteration 1, and
afterwards the evaluator's feedback on the previous iteration's outline. -/
def fbSeq (gen : Nat → String → String) : Nat → String
  | 0 => ""
  | 1 => ""
  | i + 2 => (evaluate (gen (i + 1) (fbSeq gen (i + 1)))).feedback

/-- The evaluator passes at iteration `i` of the run of `gen`, assuming all
iterations before `i` failed. -/
def passesAt (gen : Nat → String → String) (i : Nat) : Prop :=
  (evaluate (gen i (fbSeq gen i))).score = "pass"

instance (gen : Nat → String → String) (i : Nat) : Decidable (passesAt gen i) := by
  unfold passesAt; infer_instance

/-! ## Parallel voting (`src/agentic_patterns/parallel.py`) -/

/-- The keys of `Counter(translations)` in first-occurrence order, which is
the iteration order of a Python `Counter`; `seen` accumulates keys already
emitted. -/
def firstOccAux : List String → List String → List String
  | [], _ => []
  | x :: xs, seen => if x ∈ seen then firstOccAux xs seen else x :: firstOccAux xs (x :: seen)

/-- The keys of `Counter(ts)` in first-occurrence order. -/
def firstOccurrences (ts : List String) : List String := firstOccAux ts []

/-- Selection of the maximal-count key: `best` is retained unless a later
candidate has a strictly greater count, which is the tie-breaking of
`Counter.most_common` (stable sort by descending count over insertion
order). -/
def mostCommonAux (ts : List String) : List String → String → String
  | [], best => best
  | c :: cs, best =>
    if ts.count best < ts.count c then mostCommonAux ts cs c else mostCommonAux ts cs best

/-- Python `Counter(ts).most_common(1)[0][0]`; `none` when `ts` is empty
(where Python would raise an IndexError). -/
def most_common1 (ts : List String) : Option String :=
  match firstOccurrences ts with
  | [] => none
  | x :: xs => some (mostCommonAux ts xs x)

/-- The result dictionary of `ParallelTranslation.run` (parallel.py lines
47-51), without the trace-file path. -/
structure ParallelResult where
  input : String
  translations : List String
  best : String
deriving DecidableEq, Repr

/-- `ParallelTranslation.run` (parallel.py lines 33-51), with the three
concurrently gathered replies made an explicit function `replies : Fin 3 →
String`: collect the three translations in gather order and select the most
common one. The empty-list case of the selection is unreachable because the
list always has three elements. -/
def ParallelTranslation.run (message : String) (replies : Fin 3 → String) : ParallelResult :=
  let translations := [replies 0, replies 1, replies 2]
  { input := message
    translations := translations
    best := (most_common1 translations).getD "" }

/-! ## Model provider (`src/utils/model_provider.py`) -/

/-- One role/content message dict. -/
structure Message where
  role : String
  content : String
deriving DecidableEq, Repr

/-- The mock usage dictionary of `call_model`. -/
structure Usage where
  prompt_tokens : Nat
  completion_tokens : Nat
deriving DecidableEq, Repr

/-- The `_TRANSLATIONS` dictionary (model_provider.py lines 30-41) as a
double lookup: `TRANSLATIONS lang text` is
`_TRANSLATIONS.get(lang, {}).get(text)`. -/
def TRANSLATIONS (lang text : String) : Option String :=
  if lang = "es" then
    if text = "Buy now" then some "Comprar ahora"
    else if text = "Learn more" then some "Más información"
    else if text = "Try it free" then some "Pruébalo gratis"
    else none
  else if lang = "fr" then
    if text = "Buy now" then some "Achetez maintenant"
    else if text = "Learn more" then some "En savoir plus"
    else if text = "Try it free" then some "Essayez gratuitement"
    else none
  else none

/-- The hard-coded topic list of `_stub_response`'s story-outline branch
(model_provider.py lines 68-72), from which `random.choice` picks. -/
def topics : List String :=
  ["An unexpected journey leads to self‑discovery.",
   "A mysterious artifact sparks an intergalactic adventure.",
   "A detective unravels secrets in a future metropolis."]

/-- The translation branch of `_stub_response` (model_provider.py lines
55-65): take the part of the lowercased prompt after the last occurrence of
`"to"`, its first whitespace word's first two characters as the target
language, and the stripped part of the prompt after the first colon as the
text; look both up in the dictionary, with a bracketed fallback. The
IndexError raised when no word follows the last `"to"` is caught and turned
into the `[translation error]` reply. -/
def translationReply (prompt : String) : String :=
  let lowerP := lower prompt
  let lastPart := ((pySplitOn lowerP "to").getLastD "")
  match pyWords lastPart with
  | [] => "[translation error] " ++ prompt
  | w :: _ =>
    let target_lang : String := ⟨w.data.take 2⟩
    let original := pyStrip (afterFirstColon prompt)
    match TRANSLATIONS target_lang original with
    | some t => t
    | none => "[" ++ target_lang ++ "] " ++ original

/-- `_stub_response` (model_provider.py lines 44-75). The `random.choice`
over `topics` in the story-outline branch is modelled by the explicit index
`pick`; no other branch consults it. -/
def stub_response (prompt : String) (pick : Fin 3) : String :=
  let lowerP := lower prompt
  if containsSub lowerP "marketing copy" || containsSub lowerP "headline" then
    "Introducing our latest innovation – a product that seamlessly blends cutting‑edge technology with everyday usability. Unlock new possibilities today!"
  else if containsSub lowerP "translate" && containsSub lowerP "to" then
    translationReply prompt
  else if containsSub lowerP "story outline" then
    topics.get pick
  else
    "OK"

/-- Python `messages[-1]["content"]` for a non-empty message list. -/
def lastContent : List Message → String
  | [] => ""
  | [m] => m.content
  | _ :: m :: ms => lastContent (m :: ms)

/-- The stub-mode branch of `call_model` (model_provider.py lines 115-119):
reply from the stub, with simulated token usage
`max(1, len(reply.split()) // 5)` on both counters. -/
def call_model_stub (messages : List Message) (pick : Fin 3) : String × Usage :=
  let reply := stub_response (lastContent messages) pick
  let tokens := max 1 ((pyWords reply).length / 5)
  (reply, ⟨tokens, tokens⟩)

/-- The remote-error fallback branch of `call_model` (model_provider.py
lines 111-114): when the OpenAI call raises, the stub reply is returned
with both usage counters zero. -/
def call_model_remote_error (messages : List Message) (pick : Fin 3) : String × Usage :=
  (stub_response (lastContent messages) pick, ⟨0, 0⟩)

/-! ## Helper lemmas -/

/-- Erasing an index commutes with mapping. -/
theorem map_eraseIdx {α β : Type} (f : α → β) :
    ∀ (l : List α) (i : Nat), (l.eraseIdx i).map f = (l.map f).eraseIdx i
  | [], _ => rfl
  | _ :: _, 0 => rfl
  | x :: l, i + 1 => by simp [List.eraseIdx, map_eraseIdx f l i]

/-- The dispatched worker of the concrete `Orchestrator` always echoes the
task's id in its result. -/
theorem dispatched_task_id (task : Task) :
    (runWorker ((workers task.type).getD analysis_worker) task).task_id = task.task_id := by
  unfold workers
  split
  · rfl
  · split
    · rfl
    · split
      · rfl
      · rfl

/-- `evaluate` either passes with empty feedback or fails with the first
canned suggestion. -/
theorem evaluate_cases (outline : String) :
    evaluate outline = ⟨"", "pass"⟩ ∨
    evaluate outline = ⟨"Add an element of mystery", "needs_improvement"⟩ := by
  unfold evaluate
  split
  · exact Or.inl rfl
  · exact Or.inr rfl

/-- Unfolding of `fbSeq` at a successor of a positive iteration. -/
theorem fbSeq_succ (gen : Nat → String → String) (i : Nat) (h : 1 ≤ i) :
    fbSeq gen (i + 1) = (evaluate (gen i (fbSeq gen i))).feedback := by
  match i, h with
  | j + 1, _ => rfl

/-- Running the loop body from iteration `iter` with the feedback of the
failing prefix: if the evaluator first passes at iteration `k` within the
remaining budget, the loop stops there with `passed = true`. -/
theorem runAux_first_pass (gen : Nat → String → String) :
    ∀ fuel iter k : Nat, 1 ≤ iter → iter ≤ k → k ≤ iter + fuel →
      passesAt gen k → (∀ i, iter ≤ i → i < k → ¬ passesAt gen i) →
      runAux gen iter fuel (fbSeq gen iter) =
        ⟨gen k (fbSeq gen k), true, k, fbSeq gen k⟩ := by
  intro fuel
  induction fuel with
  | zero =>
    intro iter k h1 h2 h3 hp _
    have hk : k = iter := by omega
    subst hk
    simp only [runAux]
    rw [if_pos (show (evaluate (gen k (fbSeq gen k))).score = "pass" from hp)]
  | succ fuel ih =>
    intro iter k h1 h2 h3 hp hf
    by_cases hik : iter = k
    · subst hik
      simp only [runAux]
      rw [if_pos (show (evaluate (gen iter (fbSeq gen iter))).score = "pass" from hp)]
    · have hlt : iter < k := by omega
      have hnp : ¬ (evaluate (gen iter (fbSeq gen iter))).score = "pass" :=
        hf iter le_rfl hlt
      simp only [runAux]
      rw [if_neg hnp, ← fbSeq_succ gen iter h1]
      exact ih (iter + 1) k (by omega) (by omega) (by omega) hp
        (fun i hi1 hi2 => hf i (by omega) hi2)

/-- Running the loop body from iteration `iter` with the feedback of the
failing prefix: if the evaluator fails throughout the remaining budget, the
loop exhausts it and reports the final iteration's outline and feedback. -/
theorem runAux_no_pass (gen : Nat → String → String) :
    ∀ fuel iter : Nat, 1 ≤ iter →
      (∀ i, iter ≤ i → i ≤ iter + fuel → ¬ passesAt gen i) →
      runAux gen iter fuel (fbSeq gen iter) =
        ⟨gen (iter + fuel) (fbSeq gen (iter + fuel)), false, iter + fuel,
         (evaluate (gen (iter + fuel) (fbSeq gen (iter + fuel)))).feedback⟩ := by
  intro fuel
  induction fuel with
  | zero =>
    intro iter h1 hf
    have hnp : ¬ (evaluate (gen iter (fbSeq gen iter))).score = "pass" :=
      hf iter le_rfl (by omega)
    simp only [runAux]
    rw [if_neg hnp]
    simp
  | succ fuel ih =>
    intro iter h1 hf
    have hnp : ¬ (evaluate (gen iter (fbSeq gen iter))).score = "pass" :=
      hf iter le_rfl (by omega)
    simp only [runAux]
    rw [if_neg hnp, ← fbSeq_succ gen iter h1]
    have := ih (iter + 1) (by omega) (fun i hi1 hi2 => hf i (by omega) (by omega))
    rw [this]
    have harith : iter + 1 + fuel = iter + (fuel + 1) := by omega
    rw [harith]

/-! ## Claims -/

/-- C1, counterexample: on the description
`"Build login UI\nBuild login API\nWrite report"` the Task Decomposer does
not produce the classification sequence `[frontend, backend, analysis]`
claimed by the spec, because the second line is classified `frontend`
(`"ui"` occurs as a substring of `"build"` in its lowercasing), not
`backend`. -/
theorem C1_counterexample :
    ¬ (analyse_project "Build login UI\nBuild login API\nWrite report").map Task.type
        = ["frontend", "backend", "analysis"] := by decide

/-- C1, amended: on the description
`"Build login UI\nBuild login API\nWrite report"` the Task Decomposer
returns exactly three tasks in order — `task_1` classified `frontend`,
`task_2` classified `frontend` (the frontend keyword `"ui"` is a substring
of `"build"`, and frontend is checked first), `task_3` classified
`analysis` — and executing these three tasks yields three succeeded
outcomes with `all_tasks_completed = true`. -/
theorem C1_decompose_and_execute :
    analyse_project "Build login UI\nBuild login API\nWrite report" =
      [⟨"task_1", "Build login UI", "frontend", []⟩,
       ⟨"task_2", "Build login API", "frontend", []⟩,
       ⟨"task_3", "Write report", "analysis", []⟩] ∧
    (execute_tasks workers
        (analyse_project "Build login UI\nBuild login API\nWrite report")).map
        TaskResult.success = [true, true, true] ∧
    all_tasks_completed (execute_tasks workers
        (analyse_project "Build login UI\nBuild login API\nWrite report")) = true := by
  refine ⟨by decide, by decide, by decide⟩

/-- C2: line classification is case-insensitive (it depends only on the
lowercasing of the line) and first-match-wins with frontend checked before
backend: a line whose lowercasing contains `"ui"` or `"frontend"` as a
substring is classified `frontend`; otherwise one containing `"api"` or
`"backend"` is classified `backend`; otherwise `analysis`; and a line
containing both kinds of terms is classified `frontend`. -/
theorem C2_classification_policy :
    (∀ l1 l2 : String, lower l1 = lower l2 → classifyLine l1 = classifyLine l2) ∧
    (∀ line : String,
      (containsSub (lower line) "ui" || containsSub (lower line) "frontend") = true →
      classifyLine line = "frontend") ∧
    (∀ line : String,
      (containsSub (lower line) "ui" || containsSub (lower line) "frontend") = false →
      (containsSub (lower line) "api" || containsSub (lower line) "backend") = true →
      classifyLine line = "backend") ∧
    (∀ line : String,
      (containsSub (lower line) "ui" || containsSub (lower line) "frontend") = false →
      (containsSub (lower line) "api" || containsSub (lower line) "backend") = false →
      classifyLine line = "analysis") ∧
    (∀ line : String,
      (containsSub (lower line) "ui" || containsSub (lower line) "frontend") = true →
      (containsSub (lower line) "api" || containsSub (lower line) "backend") = true →
      classifyLine line = "frontend") := by
  refine ⟨?_, ?_, ?_, ?_, ?_⟩
  · intro l1 l2 h
    unfold classifyLine
    rw [h]
  · intro line h
    unfold classifyLine
    simp only [List.any_cons, List.any_nil, Bool.or_false] at *
    simp [h]
  · intro line h1 h2
    unfold classifyLine
    simp only [List.any_cons, List.any_nil, Bool.or_false] at *
    simp [h1, h2]
  · intro line h1 h2
    unfold classifyLine
    simp only [List.any_cons, List.any_nil, Bool.or_false] at *
    simp [h1, h2]
  · intro line h1 h2
    unfold classifyLine
    simp only [List.any_cons, List.any_nil, Bool.or_false] at *
    simp [h1]

/-- C2 witness: a line that contains both a frontend term and a backend
term is classified `frontend`. -/
theorem C2_classification_policy_witness :
    classifyLine "Design the UI for the API" = "frontend" :=
  C2_classification_policy.2.2.2.2 "Design the UI for the API" (by decide) (by decide)

/-- C7: for every candidate outline, the verdict of `evaluate` has empty
feedback if and only if its score is `"pass"`. -/
theorem C7_feedback_empty_iff_pass (outline : String) :
    (evaluate outline).feedback = "" ↔ (evaluate outline).score = "pass" := by
  unfold evaluate
  split
  · decide
  · decide

/-- C5: the Task Executor returns exactly one outcome per input task, in
input order with matching task ids; a task whose type is absent from the
dispatch table is handled by the default `analysis_worker`; and the
aggregated `all_tasks_completed` flag is true iff every outcome's success
flag is true. -/
theorem C5_executor_shape (tasks : List Task) :
    (execute_tasks workers tasks).length = tasks.length ∧
    (∀ i : Nat, ((execute_tasks workers tasks)[i]?).map TaskResult.task_id
        = (tasks[i]?).map Task.task_id) ∧
    (∀ i : Nat, ∀ task : Task, tasks[i]? = some task → workers task.type = none →
        (execute_tasks workers tasks)[i]? = some (runWorker analysis_worker task)) ∧
    (all_tasks_completed (execute_tasks workers tasks) = true ↔
        ∀ r ∈ execute_tasks workers tasks, r.success = true) := by
  refine ⟨?_, ?_, ?_, ?_⟩
  · simp [execute_tasks]
  · intro i
    simp only [execute_tasks, List.getElem?_map]
    cases h : tasks[i]? with
    | none => rfl
    | some task => simp [dispatched_task_id]
  · intro i task hget habsent
    simp [execute_tasks, List.getElem?_map, hget, habsent]
  · simp [all_tasks_completed, List.all_eq_true]

/-- C5 witness: one task of an unknown type `"database"` yields exactly one
outcome, produced by the default `analysis_worker`. -/
theorem C5_executor_shape_witness :
    (execute_tasks workers [⟨"task_1", "Set up the database", "database", []⟩])[0]?
      = some (runWorker analysis_worker ⟨"task_1", "Set up the database", "database", []⟩) :=
  (C5_executor_shape [⟨"task_1", "Set up the database", "database", []⟩]).2.2.1 0
    ⟨"task_1", "Set up the database", "database", []⟩ (by decide) (by rfl)

/-- C6: for every dispatch table and task list, if the worker invoked for
the task at position `i` raises an error with message `msg`, the executor
produces for that task exactly the failed outcome
`⟨task_id, false, "", some msg⟩`, and the outcomes of all other tasks are
exactly those of the run without that task (erasing the task commutes with
execution). -/
theorem C6_failure_isolation (table : String → Option Worker) (tasks : List Task)
    (i : Nat) (task : Task) (msg : String)
    (hget : tasks[i]? = some task)
    (herr : ((table task.type).getD analysis_worker) task = .error msg) :
    (execute_tasks table tasks)[i]? = some ⟨task.task_id, false, "", some msg⟩ ∧
    execute_tasks table (tasks.eraseIdx i) = (execute_tasks table tasks).eraseIdx i := by
  constructor
  · simp [execute_tasks, List.getElem?_map, hget, runWorker, herr]
  · exact map_eraseIdx _ tasks i

/-- C3: for every generator and every `maxIterations ≥ 1`, if the evaluator
first passes at iteration `k ≤ maxIterations`, then `JudgeLoop.run`
terminates at iteration `k` — equal to the full loop result of stopping
there, in particular with `passed = true` and the reported `iterations`
field equal to `k` (so exactly `k` generate/evaluate cycles are performed,
never zero and never more than `maxIterations`). -/
theorem C3_terminates_at_first_pass (gen : Nat → String → String)
    (maxIterations k : Nat) (h1 : 1 ≤ k) (h2 : k ≤ maxIterations)
    (hp : passesAt gen k) (hf : ∀ i, 1 ≤ i → i < k → ¬ passesAt gen i) :
    JudgeLoop.run gen maxIterations = ⟨gen k (fbSeq gen k), true, k, fbSeq gen k⟩ ∧
    (JudgeLoop.run gen maxIterations).passed = true ∧
    (JudgeLoop.run gen maxIterations).iterations = k := by
  have hrun : JudgeLoop.run gen maxIterations
      = runAux gen 1 (maxIterations - 1) (fbSeq gen 1) := rfl
  have h := runAux_first_pass gen (maxIterations - 1) 1 k (by omega) h1 (by omega) hp
    (fun i hi1 hi2 => hf i hi1 hi2)
  rw [hrun, h]
  exact ⟨rfl, rfl, rfl⟩

/-- A generator whose outline passes the evaluator exactly from iteration 2
on: more than 8 words and the keyword `"unexpected"`. -/
def genPassAt2 : Nat → String → String := fun i _ =>
  if i = 2 then "aa bb cc dd ee ff gg hh ii unexpected" else "too short"

/-- C3 witness: with `genPassAt2` and `maxIterations = 3` the loop stops at
iteration 2 with `passed = true`. -/
theorem C3_terminates_at_first_pass_witness :
    JudgeLoop.run genPassAt2 3 =
      ⟨genPassAt2 2 (fbSeq genPassAt2 2), true, 2, fbSeq genPassAt2 2⟩ ∧
    (JudgeLoop.run genPassAt2 3).passed = true ∧
    (JudgeLoop.run genPassAt2 3).iterations = 2 :=
  C3_terminates_at_first_pass genPassAt2 3 2 (by decide) (by decide) (by decide)
    (fun i hi1 hi2 => by
      have hi : i = 1 := by omega
      subst hi
      decide)

/-- C4: for every generator and every `maxIterations ≥ 1`, if the evaluator
never passes in the first `maxIterations` iterations, `JudgeLoop.run`
terminates normally (it is a total function into `JudgeResult`) with
`passed = false`, `iterations = maxIterations`, and the outline and
feedback produced in the final iteration. -/
theorem C4_exhausts_without_pass (gen : Nat → String → String) (maxIterations : Nat)
    (h1 : 1 ≤ maxIterations)
    (hf : ∀ i, 1 ≤ i → i ≤ maxIterations → ¬ passesAt gen i) :
    JudgeLoop.run gen maxIterations =
      ⟨gen maxIterations (fbSeq gen maxIterations), false, maxIterations,
       (evaluate (gen maxIterations (fbSeq gen maxIterations))).feedback⟩ := by
  have hrun : JudgeLoop.run gen maxIterations
      = runAux gen 1 (maxIterations - 1) (fbSeq gen 1) := rfl
  have h := runAux_no_pass gen (maxIterations - 1) 1 (by omega)
    (fun i hi1 hi2 => hf i hi1 (by omega))
  have harith : 1 + (maxIterations - 1) = maxIterations := by omega
  rw [hrun, h, harith]

/-- A generator whose outline never passes the evaluator. -/
def genNeverPass : Nat → String → String := fun _ _ => "too short"

/-- C4 witness: with an always-failing evaluation and `maxIterations = 3`,
the loop returns `passed = false` and `iterations = 3`. -/
theorem C4_exhausts_without_pass_witness :
    JudgeLoop.run genNeverPass 3 =
      ⟨genNeverPass 3 (fbSeq genNeverPass 3), false, 3,
       (evaluate (genNeverPass 3 (fbSeq genNeverPass 3))).feedback⟩ :=
  C4_exhausts_without_pass genNeverPass 3 (by decide)
    (fun i hi1 hi2 => by interval_cases i <;> decide)

/-- C10: when `JudgeLoop.run` terminates with `passed = true` at iteration
`k`, the `feedback` field of the returned result is not cleared: it is the
feedback entering iteration `k`, i.e. the evaluator's feedback from the
last failing iteration `k - 1` — the empty string when `k = 1` and a
non-empty improvement suggestion when `k > 1`. -/
theorem C10_feedback_not_cleared (gen : Nat → String → String)
    (maxIterations k : Nat) (h1 : 1 ≤ k) (h2 : k ≤ maxIterations)
    (hp : passesAt gen k) (hf : ∀ i, 1 ≤ i → i < k → ¬ passesAt gen i) :
    (JudgeLoop.run gen maxIterations).feedback = fbSeq gen k ∧
    (k = 1 → (JudgeLoop.run gen maxIterations).feedback = "") ∧
    (2 ≤ k →
      (JudgeLoop.run gen maxIterations).feedback =
        (evaluate (gen (k - 1) (fbSeq gen (k - 1)))).feedback ∧
      (JudgeLoop.run gen maxIterations).feedback ≠ "") := by
  have hrun : JudgeLoop.run gen maxIterations
      = runAux gen 1 (maxIterations - 1) (fbSeq gen 1) := rfl
  have h := runAux_first_pass gen (maxIterations - 1) 1 k (by omega) h1 (by omega) hp hf
  rw [hrun, h]
  refine ⟨rfl, ?_, ?_⟩
  · intro hk
    subst hk
    rfl
  · intro hk
    have hk1 : k - 1 + 1 = k := by omega
    have hb : fbSeq gen k = (evaluate (gen (k - 1) (fbSeq gen (k - 1)))).feedback := by
      conv_lhs => rw [← hk1]
      exact fbSeq_succ gen (k - 1) (by omega)
    have hnp : ¬ passesAt gen (k - 1) := hf (k - 1) (by omega) (by omega)
    refine ⟨hb, ?_⟩
    rw [hb]
    rcases evaluate_cases (gen (k - 1) (fbSeq gen (k - 1))) with hc | hc
    · exfalso
      apply hnp
      show (evaluate (gen (k - 1) (fbSeq gen (k - 1)))).score = "pass"
      rw [hc]
    · rw [hc]
      show "Add an element of mystery" ≠ ""
      decide

/-- C10 witness: with `genPassAt2` and `maxIterations = 3` the loop passes
at iteration 2 and the returned feedback is the (non-empty) suggestion from
failing iteration 1. -/
theorem C10_feedback_not_cleared_witness :
    (JudgeLoop.run genPassAt2 3).feedback = fbSeq genPassAt2 2 ∧
    ((2 : Nat) = 1 → (JudgeLoop.run genPassAt2 3).feedback = "") ∧
    ((2 : Nat) ≤ 2 →
      (JudgeLoop.run genPassAt2 3).feedback =
        (evaluate (genPassAt2 (2 - 1) (fbSeq genPassAt2 (2 - 1)))).feedback ∧
      (JudgeLoop.run genPassAt2 3).feedback ≠ "") :=
  C10_feedback_not_cleared genPassAt2 3 2 (by decide) (by decide) (by decide)
    (fun i hi1 hi2 => by
      have hi : i = 1 := by omega
      subst hi
      decide)

/-- A worker that always raises, for exercising the failure guard. -/
def boomWorker : Worker := fun _ => .error "boom"

/-- The concrete dispatch table extended with the always-raising worker
under the type `"broken"`. -/
def tableWithBoom : String → Option Worker := fun t =>
  if t = "broken" then some boomWorker else workers t

/-- C6 witness: injecting the raising worker among passing ones, the task
of type `"broken"` at position 1 yields exactly the failed outcome with the
raised message, and erasing it commutes with execution. -/
theorem C6_failure_isolation_witness :
    (execute_tasks tableWithBoom
        [⟨"task_1", "Analyse the data", "analysis", []⟩,
         ⟨"task_2", "Broken step", "broken", []⟩])[1]?
      = some ⟨"task_2", false, "", some "boom"⟩ ∧
    execute_tasks tableWithBoom
        ([⟨"task_1", "Analyse the data", "analysis", []⟩,
          ⟨"task_2", "Broken step", "broken", []⟩].eraseIdx 1)
      = (execute_tasks tableWithBoom
          [⟨"task_1", "Analyse the data", "analysis", []⟩,
           ⟨"task_2", "Broken step", "broken", []⟩]).eraseIdx 1 :=
  C6_failure_isolation tableWithBoom
    [⟨"task_1", "Analyse the data", "analysis", []⟩,
     ⟨"task_2", "Broken step", "broken", []⟩]
    1 ⟨"task_2", "Broken step", "broken", []⟩ "boom" (by decide) (by rfl)

/-- Selection over a three-element list: `most_common1` returns an element
of maximal multiplicity, and among elements of maximal multiplicity the one
whose first occurrence comes earliest. -/
theorem most_common1_three (a b c : String) :
    ∃ best, most_common1 [a, b, c] = some best ∧ best ∈ [a, b, c] ∧
      (∀ x ∈ [a, b, c], List.count x [a, b, c] ≤ List.count best [a, b, c]) ∧
      (∀ x ∈ [a, b, c], List.count x [a, b, c] = List.count best [a, b, c] →
        List.indexOf best [a, b, c] ≤ List.indexOf x [a, b, c]) := by
  by_cases hab : a = b
  · by_cases hac : a = c
    · subst hab
      subst hac
      refine ⟨a, ?_, by simp, ?_, ?_⟩
      · simp [most_common1, firstOccurrences, firstOccAux, mostCommonAux]
      · intro x hx
        rcases (by simpa using hx : x = a) with rfl
        exact le_refl _
      · intro x hx _
        rcases (by simpa using hx : x = a) with rfl
        exact le_refl _
    · subst hab
      have huniq : firstOccurrences [a, a, c] = [a, c] := by
        simp [firstOccurrences, firstOccAux, Ne.symm hac]
      have hcnta : List.count a [a, a, c] = 2 := by
        simp [List.count_cons_self, List.count_cons_of_ne, hac]
      have hcntc : List.count c [a, a, c] = 1 := by
        simp [List.count_cons_self, List.count_cons_of_ne, Ne.symm hac]
      have hmc : most_common1 [a, a, c] = some a := by
        unfold most_common1
        rw [huniq]
        simp [mostCommonAux, hcnta, hcntc]
      refine ⟨a, hmc, by simp, ?_, ?_⟩
      · intro x hx
        rcases (by simpa using hx : x = a ∨ x = c) with rfl | rfl
        · exact le_refl _
        · rw [hcnta, hcntc]
          omega
      · intro x hx hcnt
        rcases (by simpa using hx : x = a ∨ x = c) with rfl | rfl
        · exact le_refl _
        · rw [hcnta, hcntc] at hcnt
          omega
  · by_cases hac : a = c
    · subst hac
      have huniq : firstOccurrences [a, b, a] = [a, b] := by
        simp [firstOccurrences, firstOccAux, Ne.symm hab]
      have hcnta : List.count a [a, b, a] = 2 := by
        simp [List.count_cons_self, List.count_cons_of_ne, hab]
      have hcntb : List.count b [a, b, a] = 1 := by
        simp [List.count_cons_self, List.count_cons_of_ne, Ne.symm hab]
      have hmc : most_common1 [a, b, a] = some a := by
        unfold most_common1
        rw [huniq]
        simp [mostCommonAux, hcnta, hcntb]
      refine ⟨a, hmc, by simp, ?_, ?_⟩
      · intro x hx
        rcases (by simpa using hx : x = a ∨ x = b ∨ x = a) with rfl | rfl | rfl
        · exact le_refl _
        · rw [hcnta, hcntb]
          omega
        · exact le_refl _
      · intro x hx hcnt
        rcases (by simpa using hx : x = a ∨ x = b ∨ x = a) with rfl | rfl | rfl
        · exact le_refl _
        · rw [hcnta, hcntb] at hcnt
          omega
        · exact le_refl _
    · by_cases hbc : b = c
      · subst hbc
        have huniq : firstOccurrences [a, b, b] = [a, b] := by
          simp [firstOccurrences, firstOccAux, Ne.symm hab]
        have hcnta : List.count a [a, b, b] = 1 := by
          simp [List.count_cons_self, List.count_cons_of_ne, hab]
        have hcntb : List.count b [a, b, b] = 2 := by
          simp [List.count_cons_self, List.count_cons_of_ne, Ne.symm hab]
        have hmc : most_common1 [a, b, b] = some b := by
          unfold most_common1
          rw [huniq]
          simp [mostCommonAux, hcnta, hcntb]
        refine ⟨b, hmc, by simp, ?_, ?_⟩
        · intro x hx
          rcases (by simpa using hx : x = a ∨ x = b) with rfl | rfl
          · rw [hcnta, hcntb]
            omega
          · exact le_refl _
        · intro x hx hcnt
          rcases (by simpa using hx : x = a ∨ x = b) with rfl | rfl
          · rw [hcnta, hcntb] at hcnt
            omega
          · exact le_refl _
      · have huniq : firstOccurrences [a, b, c] = [a, b, c] := by
          simp [firstOccurrences, firstOccAux, Ne.symm hab, Ne.symm hac, Ne.symm hbc]
        have hcnta : List.count a [a, b, c] = 1 := by
          simp [List.count_cons_self, List.count_cons_of_ne, hab, hac]
        have hcntb : List.count b [a, b, c] = 1 := by
          simp [List.count_cons_self, List.count_cons_of_ne, Ne.symm hab, hbc]
        have hcntc : List.count c [a, b, c] = 1 := by
          simp [List.count_cons_self, List.count_cons_of_ne, Ne.symm hac, Ne.symm hbc]
        have hmc : most_common1 [a, b, c] = some a := by
          unfold most_common1
          rw [huniq]
          simp [mostCommonAux, hcnta, hcntb, hcntc]
        have hidx : List.indexOf a [a, b, c] = 0 := List.indexOf_cons_self a _
        refine ⟨a, hmc, by simp, ?_, ?_⟩
        · intro x hx
          rcases (by simpa using hx : x = a ∨ x = b ∨ x = c) with rfl | rfl | rfl
          · exact le_refl _
          · rw [hcnta, hcntb]
          · rw [hcnta, hcntc]
        · intro x hx _
          rw [hidx]
          exact Nat.zero_le _

/-- C8: the voting step of `ParallelTranslation.run` selects as `best` a
most frequent exact-text match among the three collected translations, with
ties broken by first occurrence in collection order; in particular for
collected replies `["A", "A", "B"]` it selects `"A"`, and for
`["A", "B", "C"]` (all distinct) it selects the first element `"A"`. -/
theorem C8_voting_selection :
    (∀ (message : String) (replies : Fin 3 → String),
      (ParallelTranslation.run message replies).best ∈
          (ParallelTranslation.run message replies).translations ∧
      (∀ x ∈ (ParallelTranslation.run message replies).translations,
        List.count x ((ParallelTranslation.run message replies).translations) ≤
          List.count ((ParallelTranslation.run message replies).best)
            ((ParallelTranslation.run message replies).translations)) ∧
      (∀ x ∈ (ParallelTranslation.run message replies).translations,
        List.count x ((ParallelTranslation.run message replies).translations) =
          List.count ((ParallelTranslation.run message replies).best)
            ((ParallelTranslation.run message replies).translations) →
        List.indexOf ((ParallelTranslation.run message replies).best)
            ((ParallelTranslation.run message replies).translations) ≤
          List.indexOf x ((ParallelTranslation.run message replies).translations))) ∧
    (ParallelTranslation.run "msg"
        (fun i => if i = 0 then "A" else if i = 1 then "A" else "B")).best = "A" ∧
    (ParallelTranslation.run "msg"
        (fun i => if i = 0 then "A" else if i = 1 then "B" else "C")).best = "A" := by
  refine ⟨?_, by decide, by decide⟩
  intro message replies
  obtain ⟨best, heq, hmem, hmax, htie⟩ :=
    most_common1_three (replies 0) (replies 1) (replies 2)
  have hb : (ParallelTranslation.run message replies).best = best := by
    simp [ParallelTranslation.run, heq]
  have ht : (ParallelTranslation.run message replies).translations
      = [replies 0, replies 1, replies 2] := rfl
  rw [hb, ht]
  exact ⟨hmem, hmax, htie⟩

/-- C8 witness: applied to the replies `["A", "A", "B"]`, the selected
`best` has maximal multiplicity among the collected translations. -/
theorem C8_voting_selection_witness :
    List.count "B" ["A", "A", "B"] ≤ List.count "A" ["A", "A", "B"] := by
  have h := (C8_voting_selection.1 "msg"
    (fun i => if i = 0 then "A" else if i = 1 then "A" else "B")).2.1 "B" (by decide)
  exact h

/-- C9, divergence: `_stub_response` is not a deterministic function of the
prompt — in the story-outline branch the reply depends on the
`random.choice` pick, so at the fixed prompt
`"Write a very short story outline about cats."` two invocations with
different picks return different replies (contradicting the function's own
docstring "Return a deterministic response based on the prompt"); the
remote-error fallback does, as the claim also states, return both usage
counters zero. -/
theorem C9_stub_randomness :
    stub_response "Write a very short story outline about cats." 0 ≠
      stub_response "Write a very short story outline about cats." 1 ∧
    (call_model_remote_error
        [⟨"user", "Write a very short story outline about cats."⟩] 0).2 = ⟨0, 0⟩ :=
  ⟨by decide, rfl⟩

end AgenticPatterns
